import Mathlib

/-!
Verification development for the `c-ares-resolver` crate: a shallow embedding
of the event-loop / readiness-bridging subsystem (`src/eventloop.rs`) and the
three resolver façades (`src/resolver.rs`, `src/blockingresolver.rs`,
`src/futureresolver.rs`), with theorems checking the natural-language
specification against the code.
-/

namespace CAresResolver

/-- Socket handles (`c_ares::Socket`) are platform-level integers. -/
abbrev Socket := Nat

/-- `Interest(bool, bool)` from `eventloop.rs` line 19: an interest in read
and/or write events. -/
structure Interest where
  readable : Bool
  writable : Bool
deriving Repr, DecidableEq

/-- `polling::Event`: a key (the socket) plus read/write readiness flags,
as built by `Event::new(key, readable, writable)`. -/
structure Event where
  key : Nat
  readable : Bool
  writable : Bool
deriving Repr, DecidableEq

/-- The calls `sock_callback` makes on the `polling::Poller`:
`poller.add`, `poller.modify`, `poller.delete`. -/
inductive PollerOp where
  | add (socket : Socket) (event : Event)
  | modify (socket : Socket) (event : Event)
  | delete (socket : Socket)
deriving Repr, DecidableEq

/-- The state `sock_callback` acts on: the `interests` hash map
(`HashMap<c_ares::Socket, Interest>`), and the poller's registration table
(which sockets are currently registered, with which event). -/
structure RegState where
  interests : Socket → Option Interest
  poller : Socket → Option Event

/-- The initial state: empty `interests` map, nothing registered. -/
def initRegState : RegState := ⟨fun _ => none, fun _ => none⟩

/-- The socket-state callback from `eventloop.rs` lines 69-95, returning the
updated state together with the list of poller calls it made.

Source logic: if `!readable && !writable`, remove the map entry and, if one
was present, `poller.delete`; otherwise build the event and interest, insert
into the map, and `poller.add` when the insert found no previous entry,
`poller.modify` when it did. -/
def sock_callback (st : RegState) (socket : Socket) (readable writable : Bool) :
    RegState × List PollerOp :=
  if !readable && !writable then
    match st.interests socket with
    | some _ =>
        ({ interests := fun s => if s = socket then none else st.interests s,
           poller := fun s => if s = socket then none else st.poller s },
         [PollerOp.delete socket])
    | none => (st, [])
  else
    let event : Event := ⟨socket, readable, writable⟩
    let interest : Interest := ⟨readable, writable⟩
    match st.interests socket with
    | none =>
        ({ interests := fun s => if s = socket then some interest else st.interests s,
           poller := fun s => if s = socket then some event else st.poller s },
         [PollerOp.add socket event])
    | some _ =>
        ({ interests := fun s => if s = socket then some interest else st.interests s,
           poller := fun s => if s = socket then some event else st.poller s },
         [PollerOp.modify socket event])

/-- One `update(socket, readable, writable)` call, as data. -/
structure UpdateCall where
  socket : Socket
  readable : Bool
  writable : Bool
deriving Repr, DecidableEq

/-- Run a sequence of socket-state callback invocations from a given state,
collecting the poller calls in order. -/
def runCallsFrom (st : RegState) : List UpdateCall → RegState × List PollerOp
  | [] => (st, [])
  | c :: rest =>
      let step := sock_callback st c.socket c.readable c.writable
      let tail := runCallsFrom step.1 rest
      (tail.1, step.2 ++ tail.2)

/-- Run a sequence of callback invocations from the initial (empty) state. -/
def runCalls (calls : List UpdateCall) : RegState :=
  (runCallsFrom initRegState calls).1

/-- The flags of the last call in `calls` that targeted socket `s`, if any. -/
def lastCall (calls : List UpdateCall) (s : Socket) : Option (Bool × Bool) :=
  match calls with
  | [] => none
  | c :: rest =>
      match lastCall rest s with
      | some rw => some rw
      | none => if c.socket = s then some (c.readable, c.writable) else none

/-- After one callback invocation, the poller registration for any socket `s`
is: for the touched socket, the new event if a flag is set and nothing
otherwise; for other sockets, unchanged.  The touched-socket/"both flags
false"/"entry absent" case needs the mirroring invariant (the poller entry is
absent whenever the map entry is), supplied here as the hypothesis `hmirror`. -/
theorem sock_callback_poller_at (st : RegState) (socket : Socket)
    (readable writable : Bool) (s : Socket)
    (hmirror : readable = false → writable = false →
      st.interests socket = none → st.poller socket = none) :
    ((sock_callback st socket readable writable).1).poller s =
      if s = socket then
        (if readable || writable then some ⟨socket, readable, writable⟩ else none)
      else st.poller s := by
  unfold sock_callback
  cases hr : readable <;> cases hw : writable <;>
    simp only [Bool.not_true, Bool.not_false, Bool.true_and, Bool.false_and,
      Bool.and_true, Bool.and_false, Bool.true_or, Bool.or_true, Bool.or_false,
      if_true, if_false] <;>
    cases hint : st.interests socket <;> simp_all <;>
    by_cases hs : s = socket <;> simp_all

/-- After one callback invocation, the interests entry for any socket `s` is:
for the touched socket, the new interest if a flag is set and nothing
otherwise; for other sockets, unchanged. -/
theorem sock_callback_interests_at (st : RegState) (socket : Socket)
    (readable writable : Bool) (s : Socket) :
    ((sock_callback st socket readable writable).1).interests s =
      if s = socket then
        (if readable || writable then some ⟨readable, writable⟩ else none)
      else st.interests s := by
  unfold sock_callback
  cases hr : readable <;> cases hw : writable <;>
    simp only [Bool.not_true, Bool.not_false, Bool.true_and, Bool.false_and,
      Bool.and_true, Bool.and_false, Bool.true_or, Bool.or_true, Bool.or_false,
      if_true, if_false] <;>
    cases hint : st.interests socket <;> simp_all <;>
    by_cases hs : s = socket <;> simp_all

/-- The mirroring invariant: the poller registration table is exactly the
interests map, with each stored interest paired with its socket as the
registered event. -/
def Mirrors (st : RegState) : Prop :=
  ∀ s, st.poller s = (st.interests s).map (fun i => Event.mk s i.readable i.writable)

theorem mirrors_init : Mirrors initRegState := by
  intro s; rfl

theorem mirrors_step (st : RegState) (socket : Socket) (readable writable : Bool)
    (h : Mirrors st) :
    Mirrors ((sock_callback st socket readable writable).1) := by
  intro s
  rw [sock_callback_poller_at st socket readable writable s
      (fun _ _ hn => by rw [h socket, hn]; rfl),
    sock_callback_interests_at st socket readable writable s]
  by_cases hs : s = socket
  · subst hs
    by_cases hf : readable || writable <;> simp [hf]
  · simp [hs, h s]

theorem mirrors_run (st : RegState) (calls : List UpdateCall) (h : Mirrors st) :
    Mirrors (runCallsFrom st calls).1 := by
  induction calls generalizing st with
  | nil => exact h
  | cons c rest ih =>
      exact ih _ (mirrors_step st c.socket c.readable c.writable h)

/-- Every entry stored in the interests map has at least one flag set
(both-false interests are removed, never stored). -/
def Flagged (st : RegState) : Prop :=
  ∀ s i, st.interests s = some i → (i.readable || i.writable) = true

theorem flagged_init : Flagged initRegState := by
  intro s i h; cases h

theorem flagged_step (st : RegState) (socket : Socket) (readable writable : Bool)
    (h : Flagged st) :
    Flagged ((sock_callback st socket readable writable).1) := by
  intro s i hi
  rw [sock_callback_interests_at st socket readable writable s] at hi
  by_cases hs : s = socket
  · subst hs
    by_cases hf : readable || writable
    · simp [hf] at hi
      rw [← hi]
      exact hf
    · simp [hf] at hi
  · simp [hs] at hi
    exact h s i hi

theorem flagged_run (st : RegState) (calls : List UpdateCall) (h : Flagged st) :
    Flagged (runCallsFrom st calls).1 := by
  induction calls generalizing st with
  | nil => exact h
  | cons c rest ih =>
      exact ih _ (flagged_step st c.socket c.readable c.writable h)

/-- Running a call sequence from a state whose interests/poller mirror each
other, the final interests entry of any socket `s` is determined by the last
call that touched `s` (or unchanged if no call touched it). -/
theorem runCallsFrom_interests_at (calls : List UpdateCall) (st : RegState)
    (s : Socket) :
    ((runCallsFrom st calls).1).interests s =
      match lastCall calls s with
      | some (r, w) => if r || w then some ⟨r, w⟩ else none
      | none => st.interests s := by
  induction calls generalizing st with
  | nil => rfl
  | cons c rest ih =>
      have hrun : (runCallsFrom st (c :: rest)).1
          = (runCallsFrom (sock_callback st c.socket c.readable c.writable).1 rest).1 := rfl
      have hlast : lastCall (c :: rest) s =
          match lastCall rest s with
          | some rw => some rw
          | none => if c.socket = s then some (c.readable, c.writable) else none := rfl
      rw [hrun, ih, hlast]
      cases hl : lastCall rest s with
      | some rw => rfl
      | none =>
          show (sock_callback st c.socket c.readable c.writable).1.interests s = _
          rw [sock_callback_interests_at st c.socket c.readable c.writable s]
          by_cases hs : c.socket = s
          · subst hs; simp
          · have hs' : ¬ s = c.socket := fun h => hs h.symm
            simp [hs, hs']

/-- Running a call sequence from a mirrored state, the final poller
registration of any socket `s` is the event for the last call that touched
`s`, when that call had a flag set; absent otherwise. -/
theorem runCallsFrom_poller_at (calls : List UpdateCall) (st : RegState)
    (s : Socket) (h : Mirrors st) :
    ((runCallsFrom st calls).1).poller s =
      match lastCall calls s with
      | some (r, w) => if r || w then some ⟨s, r, w⟩ else none
      | none => st.poller s := by
  rw [mirrors_run st calls h s, runCallsFrom_interests_at calls st s]
  cases lastCall calls s with
  | some rw =>
      cases rw with
      | mk r w => by_cases hf : (r || w) = true <;> simp [hf]
  | none => rw [h s]

/-- C1: for every finite sequence of socket-state callback invocations
`update(socket, readable, writable)` (run from the initial empty state), the
poller's final registered set is exactly the set of sockets whose last-applied
call had `readable` or `writable` true, each registered with exactly that last
`(readable, writable)` interest; and (equivalently, at every point, since every
prefix is itself a sequence) a socket is registered with the poller if and only
if the interests map has an entry for it with at least one flag set. -/
theorem claim1_registry_matches_last_applied_interest :
    ∀ (calls : List UpdateCall) (s : Socket),
      ((runCalls calls).poller s =
        match lastCall calls s with
        | some (r, w) => if r || w then some ⟨s, r, w⟩ else none
        | none => none)
      ∧ (((runCalls calls).poller s).isSome ↔
          ∃ i, (runCalls calls).interests s = some i ∧ (i.readable || i.writable) = true) := by
  intro calls s
  constructor
  · rw [runCalls, runCallsFrom_poller_at calls initRegState s mirrors_init]
    cases lastCall calls s with
    | some rw => rfl
    | none => rfl
  · have hm := mirrors_run initRegState calls mirrors_init s
    have hf := flagged_run initRegState calls flagged_init
    rw [runCalls] at *
    constructor
    · intro hsome
      rw [hm] at hsome
      cases hi : ((runCallsFrom initRegState calls).1).interests s with
      | none => rw [hi] at hsome; simp [Option.map] at hsome
      | some i => exact ⟨i, rfl, hf s i hi⟩
    · intro ⟨i, hi, _⟩
      rw [hm, hi]
      rfl

/-- The poller calls a single callback invocation makes, as a function of the
flags and of whether the socket already had an entry. -/
theorem sock_callback_ops (st : RegState) (s : Socket) (r w : Bool) :
    (sock_callback st s r w).2 =
      if r || w then
        (match st.interests s with
         | none => [PollerOp.add s ⟨s, r, w⟩]
         | some _ => [PollerOp.modify s ⟨s, r, w⟩])
      else
        (match st.interests s with
         | none => []
         | some _ => [PollerOp.delete s]) := by
  unfold sock_callback
  cases hr : r <;> cases hw : w <;>
    simp only [Bool.not_true, Bool.not_false, Bool.true_and, Bool.false_and,
      Bool.and_true, Bool.and_false, Bool.true_or, Bool.or_true, Bool.or_false,
      if_true, if_false] <;>
    cases hint : st.interests s <;> simp_all

/-- A sequence of calls on a single socket that already has an entry, each
call with at least one flag set, emits exactly one `modify` per call. -/
theorem runCallsFrom_modify_trace (flags : List (Bool × Bool)) (st : RegState)
    (s : Socket) (hst : (st.interests s).isSome = true)
    (hall : ∀ p ∈ flags, (p.1 || p.2) = true) :
    (runCallsFrom st (flags.map fun p => UpdateCall.mk s p.1 p.2)).2
      = flags.map (fun p => PollerOp.modify s ⟨s, p.1, p.2⟩) := by
  induction flags generalizing st with
  | nil => rfl
  | cons p rest ih =>
      have hp : (p.1 || p.2) = true := hall p (List.mem_cons_self p rest)
      have hrest : ∀ q ∈ rest, (q.1 || q.2) = true :=
        fun q hq => hall q (List.mem_cons_of_mem p hq)
      obtain ⟨i, hi⟩ := Option.isSome_iff_exists.mp hst
      have hops : (sock_callback st s p.1 p.2).2 = [PollerOp.modify s ⟨s, p.1, p.2⟩] := by
        rw [sock_callback_ops, hi, hp]
        simp
      have hst' : ((sock_callback st s p.1 p.2).1.interests s).isSome = true := by
        rw [sock_callback_interests_at, if_pos rfl, if_pos hp]
        rfl
      show (sock_callback st s p.1 p.2).2
          ++ (runCallsFrom (sock_callback st s p.1 p.2).1
                (rest.map fun q => UpdateCall.mk s q.1 q.2)).2 = _
      rw [hops, ih _ hst' hrest]
      rfl

/-- C3: case analysis of a single `update(socket, readable, writable)` call,
from `eventloop.rs` lines 69-95.  (1) Both flags false with an entry present:
the entry is removed, the socket deregistered, and the only poller call is one
`delete`.  (2) Both flags false with no entry: nothing happens, no poller
call.  (3) At least one flag true with no entry: an entry is inserted and the
only poller call is one `add` with that interest.  (4) At least one flag true
with an entry present: the entry is replaced and the only poller call is one
`modify`.  (5) Hence a sequence of calls on one socket, starting with no
entry, that never sets both flags false performs exactly one `add` followed by
only `modify` calls and zero `delete` calls. -/
theorem claim3_single_update_case_analysis :
    (∀ (st : RegState) (s : Socket) (i : Interest), st.interests s = some i →
       (sock_callback st s false false).2 = [PollerOp.delete s]
         ∧ (sock_callback st s false false).1.interests s = none
         ∧ (sock_callback st s false false).1.poller s = none)
    ∧ (∀ (st : RegState) (s : Socket), st.interests s = none →
         sock_callback st s false false = (st, []))
    ∧ (∀ (st : RegState) (s : Socket) (r w : Bool), (r || w) = true →
         st.interests s = none →
         (sock_callback st s r w).2 = [PollerOp.add s ⟨s, r, w⟩]
           ∧ (sock_callback st s r w).1.interests s = some ⟨r, w⟩
           ∧ (sock_callback st s r w).1.poller s = some ⟨s, r, w⟩)
    ∧ (∀ (st : RegState) (s : Socket) (r w : Bool) (i : Interest), (r || w) = true →
         st.interests s = some i →
         (sock_callback st s r w).2 = [PollerOp.modify s ⟨s, r, w⟩]
           ∧ (sock_callback st s r w).1.interests s = some ⟨r, w⟩
           ∧ (sock_callback st s r w).1.poller s = some ⟨s, r, w⟩)
    ∧ (∀ (s : Socket) (p : Bool × Bool) (rest : List (Bool × Bool)),
         (p.1 || p.2) = true → (∀ q ∈ rest, (q.1 || q.2) = true) →
         (runCallsFrom initRegState ((p :: rest).map fun q => UpdateCall.mk s q.1 q.2)).2
           = PollerOp.add s ⟨s, p.1, p.2⟩
               :: rest.map (fun q => PollerOp.modify s ⟨s, q.1, q.2⟩)) := by
  refine ⟨?_, ?_, ?_, ?_, ?_⟩
  · intro st s i hi
    refine ⟨?_, ?_, ?_⟩
    · rw [sock_callback_ops, hi]; rfl
    · rw [sock_callback_interests_at, if_pos rfl]; rfl
    · rw [sock_callback_poller_at st s false false s
          (fun _ _ h => by rw [hi] at h; cases h),
        if_pos rfl]
      rfl
  · intro st s hs
    unfold sock_callback
    rw [hs]
    rfl
  · intro st s r w hrw hs
    refine ⟨?_, ?_, ?_⟩
    · rw [sock_callback_ops, hs, hrw]; simp
    · rw [sock_callback_interests_at, if_pos rfl, if_pos hrw]
    · rw [sock_callback_poller_at st s r w s
          (fun hr hw _ => by rw [hr, hw] at hrw; cases hrw),
        if_pos rfl, if_pos hrw]
  · intro st s r w i hrw hi
    refine ⟨?_, ?_, ?_⟩
    · rw [sock_callback_ops, hi, hrw]; simp
    · rw [sock_callback_interests_at, if_pos rfl, if_pos hrw]
    · rw [sock_callback_poller_at st s r w s
          (fun _ _ h => by rw [hi] at h; cases h),
        if_pos rfl, if_pos hrw]
  · intro s p rest hp hrest
    have hops : (sock_callback initRegState s p.1 p.2).2 = [PollerOp.add s ⟨s, p.1, p.2⟩] := by
      rw [sock_callback_ops, hp]
      rfl
    have hst' : ((sock_callback initRegState s p.1 p.2).1.interests s).isSome = true := by
      rw [sock_callback_interests_at, if_pos rfl, if_pos hp]
      rfl
    show (sock_callback initRegState s p.1 p.2).2
        ++ (runCallsFrom (sock_callback initRegState s p.1 p.2).1
              (rest.map fun q => UpdateCall.mk s q.1 q.2)).2 = _
    rw [hops, runCallsFrom_modify_trace rest _ s hst' hrest]
    rfl

/-- A concrete state with an entry for socket 7 wanting reads, used in
witnesses. -/
def st7 : RegState := (sock_callback initRegState 7 true false).1

/-- Concrete instance of the C1 theorem: after `(7,r)` then `(7,w)` then
`(9,rw)` then `(9,none)`, socket 7 is registered for writes only and socket 9
is not registered. -/
theorem claim1_witness :
    ((runCalls [⟨7, true, false⟩, ⟨7, false, true⟩, ⟨9, true, true⟩, ⟨9, false, false⟩]).poller 7
        = some ⟨7, false, true⟩)
    ∧ ((runCalls [⟨7, true, false⟩, ⟨7, false, true⟩, ⟨9, true, true⟩, ⟨9, false, false⟩]).poller 9
        = none) := by
  constructor
  · rw [(claim1_registry_matches_last_applied_interest
      [⟨7, true, false⟩, ⟨7, false, true⟩, ⟨9, true, true⟩, ⟨9, false, false⟩] 7).1]
    rfl
  · rw [(claim1_registry_matches_last_applied_interest
      [⟨7, true, false⟩, ⟨7, false, true⟩, ⟨9, true, true⟩, ⟨9, false, false⟩] 9).1]
    rfl

/-- Concrete instance of the C3 theorem: each of the five cases at explicit
states and inputs, hypotheses discharged by evaluation. -/
theorem claim3_witness :
    ((sock_callback st7 7 false false).2 = [PollerOp.delete 7])
    ∧ (sock_callback initRegState 3 false false = (initRegState, []))
    ∧ ((sock_callback initRegState 7 true false).2 = [PollerOp.add 7 ⟨7, true, false⟩])
    ∧ ((sock_callback st7 7 false true).2 = [PollerOp.modify 7 ⟨7, false, true⟩])
    ∧ ((runCallsFrom initRegState
          ([(true, false), (true, true), (false, true)].map fun q => UpdateCall.mk 7 q.1 q.2)).2
        = PollerOp.add 7 ⟨7, true, false⟩
            :: [(true, true), (false, true)].map (fun q => PollerOp.modify 7 ⟨7, q.1, q.2⟩)) := by
  refine ⟨?_, ?_, ?_, ?_, ?_⟩
  · exact (claim3_single_update_case_analysis.1 st7 7 ⟨true, false⟩ (by rfl)).1
  · exact claim3_single_update_case_analysis.2.1 initRegState 3 (by rfl)
  · exact (claim3_single_update_case_analysis.2.2.1 initRegState 7 true false (by decide)
      (by rfl)).1
  · exact (claim3_single_update_case_analysis.2.2.2.1 st7 7 false true ⟨true, false⟩ (by decide)
      (by rfl)).1
  · exact claim3_single_update_case_analysis.2.2.2.2 7 (true, false)
      [(true, true), (false, true)] (by decide) (by decide)

/-- A socket argument to `Channel::process_fd`: a real socket, or
`c_ares::SOCKET_BAD` (modelled as `none`). -/
abbrev FdArg := Option Socket

/-- Calls the loop thread makes into the c-ares engine channel. -/
inductive EngineCall where
  | processPendingWrite
  | processFd (rfd wfd : FdArg)
  | processFds (fds : List (Socket × Bool × Bool))
deriving Repr, DecidableEq

/-- Observable actions of one wake cycle of the loop thread: a call into the
engine, or a `poller.modify` re-arming a socket. -/
inductive Action where
  | engine (c : EngineCall)
  | pollerModify (socket : Socket) (event : Event)
deriving Repr, DecidableEq

/-- `handle_events` from `eventloop.rs`: under `cares1_34` (lines 194-215),
one `process_fds` call with the whole batch of `(socket, read, write)`
readiness flags; otherwise (lines 217-246), one `process_fd(rfd, wfd)` per
event with `SOCKET_BAD` for the non-ready direction, and — when no event was
reported — a single `process_fd(SOCKET_BAD, SOCKET_BAD)` so c-ares can
process timeouts. -/
def handle_events (cares1_34 : Bool) (events : List Event) : List EngineCall :=
  if cares1_34 then
    [EngineCall.processFds (events.map fun e => (e.key, e.readable, e.writable))]
  else
    if events.isEmpty then
      [EngineCall.processFd none none]
    else
      events.map fun e =>
        EngineCall.processFd (if e.readable then some e.key else none)
          (if e.writable then some e.key else none)

/-- The re-arm pass from `eventloop.rs` lines 176-190: for each event
reported this cycle, if the interests map still has an entry for its socket,
`poller.modify` with the recorded interest. -/
def rearm_pass (events : List Event) (interests : Socket → Option Interest) :
    List Action :=
  events.filterMap fun e =>
    (interests e.key).map fun i =>
      Action.pollerModify e.key ⟨e.key, i.readable, i.writable⟩

/-- Result of `poller.wait`: success, `ErrorKind::Interrupted`, or any other
error. -/
inductive WaitResult where
  | ok
  | errInterrupted
  | errOther
deriving Repr, DecidableEq

/-- How one wake cycle of `event_loop_thread` ends: `exited` (the `break` on
the quit flag), `continued` (run another cycle), or `fatal` (the
`results.expect("Poll failed")` panic). -/
inductive CycleOutcome where
  | exited
  | continued
  | fatal
deriving Repr, DecidableEq

/-- The observable inputs to one wake cycle of `event_loop_thread`
(lines 145-191): the build flavor, the quit flag as read after the wait, the
wait result, the pending-write flag, the reported events, and the interests
map as it stands at the re-arm pass. -/
structure CycleInput where
  cares1_34 : Bool
  quit : Bool
  wait : WaitResult
  pendingWrite : Bool
  events : List Event
  interests : Socket → Option Interest

/-- The observable outputs of one wake cycle: how it ended, the actions it
performed in order, and the pending-write flag it leaves behind. -/
structure CycleResult where
  outcome : CycleOutcome
  actions : List Action
  pendingWriteAfter : Bool

/-- One iteration of the loop body of `event_loop_thread` (`eventloop.rs`
lines 145-191), after `poller.wait` has returned: check the quit flag and
break if set; retry on an interrupted wait; panic on any other wait error;
otherwise swap the pending-write flag (under `cares1_34`) and flush if it was
set, hand the events to `handle_events`, and run the re-arm pass. -/
def event_loop_cycle (inp : CycleInput) : CycleResult :=
  if inp.quit then
    ⟨CycleOutcome.exited, [], inp.pendingWrite⟩
  else
    match inp.wait with
    | WaitResult.errInterrupted => ⟨CycleOutcome.continued, [], inp.pendingWrite⟩
    | WaitResult.errOther => ⟨CycleOutcome.fatal, [], inp.pendingWrite⟩
    | WaitResult.ok =>
        let pwActions :=
          if inp.cares1_34 && inp.pendingWrite then
            [Action.engine EngineCall.processPendingWrite]
          else []
        let engineActions := (handle_events inp.cares1_34 inp.events).map Action.engine
        let rearmActions := rearm_pass inp.events inp.interests
        ⟨CycleOutcome.continued, pwActions ++ engineActions ++ rearmActions,
          if inp.cares1_34 then false else inp.pendingWrite⟩

/-- Phase of an action within a cycle: pending-write flush (0), readiness
processing (1), re-arming (2). -/
def Action.rank : Action → Nat
  | Action.engine EngineCall.processPendingWrite => 0
  | Action.engine (EngineCall.processFd _ _) => 1
  | Action.engine (EngineCall.processFds _) => 1
  | Action.pollerModify _ _ => 2

/-- Readiness-processing engine calls. -/
def Action.isProcess : Action → Bool
  | Action.engine (EngineCall.processFd _ _) => true
  | Action.engine (EngineCall.processFds _) => true
  | _ => false

/-- Re-arm actions. -/
def Action.isRearm : Action → Bool
  | Action.pollerModify _ _ => true
  | _ => false

/-- Everything `handle_events` emits is a `processFd` or `processFds` call. -/
theorem handle_events_shape (cares1_34 : Bool) (events : List Event) :
    ∀ c ∈ handle_events cares1_34 events,
      (Action.engine c).isProcess = true ∧ (Action.engine c).rank = 1 := by
  intro c hc
  unfold handle_events at hc
  cases cares1_34 with
  | true =>
      simp at hc
      subst hc
      exact ⟨rfl, rfl⟩
  | false =>
      simp at hc
      cases events with
      | nil =>
          simp at hc
          subst hc
          exact ⟨rfl, rfl⟩
      | cons e rest =>
          rw [if_neg (List.cons_ne_nil e rest), List.mem_map] at hc
          obtain ⟨e', he', hc⟩ := hc
          subst hc
          exact ⟨rfl, rfl⟩

/-- Everything `rearm_pass` emits is a `pollerModify`. -/
theorem rearm_pass_shape (events : List Event) (interests : Socket → Option Interest) :
    ∀ a ∈ rearm_pass events interests,
      a.isRearm = true ∧ a.rank = 2 ∧ a.isProcess = false := by
  intro a ha
  unfold rearm_pass at ha
  rw [List.mem_filterMap] at ha
  obtain ⟨e, _, he⟩ := ha
  cases hi : interests e.key with
  | none => rw [hi] at he; cases he
  | some i =>
      rw [hi] at he
      cases he
      exact ⟨rfl, rfl, rfl⟩

/-- Decomposition of a successful, non-quitting wake cycle into its three
phases in source order: pending-write flush, readiness processing, re-arm. -/
theorem event_loop_cycle_ok (inp : CycleInput) (hq : inp.quit = false)
    (hw : inp.wait = WaitResult.ok) :
    event_loop_cycle inp =
      ⟨CycleOutcome.continued,
        (if inp.cares1_34 && inp.pendingWrite then
            [Action.engine EngineCall.processPendingWrite]
          else [])
          ++ (handle_events inp.cares1_34 inp.events).map Action.engine
          ++ rearm_pass inp.events inp.interests,
        if inp.cares1_34 then false else inp.pendingWrite⟩ := by
  unfold event_loop_cycle
  rw [hq, hw]
  rfl

/-- In a successful cycle, the readiness-processing actions are exactly the
`handle_events` calls, in order. -/
theorem cycle_filter_isProcess (inp : CycleInput) (hq : inp.quit = false)
    (hw : inp.wait = WaitResult.ok) :
    (event_loop_cycle inp).actions.filter Action.isProcess
      = (handle_events inp.cares1_34 inp.events).map Action.engine := by
  rw [event_loop_cycle_ok inp hq hw]
  show ((if inp.cares1_34 && inp.pendingWrite then
      [Action.engine EngineCall.processPendingWrite] else [])
      ++ (handle_events inp.cares1_34 inp.events).map Action.engine
      ++ rearm_pass inp.events inp.interests).filter Action.isProcess = _
  rw [List.filter_append, List.filter_append]
  have h1 : (if inp.cares1_34 && inp.pendingWrite then
      [Action.engine EngineCall.processPendingWrite] else []).filter Action.isProcess = [] := by
    by_cases hc : (inp.cares1_34 && inp.pendingWrite) = true
    · rw [if_pos hc]; rfl
    · rw [if_neg hc]; rfl
  have h2 : ((handle_events inp.cares1_34 inp.events).map Action.engine).filter
      Action.isProcess = (handle_events inp.cares1_34 inp.events).map Action.engine := by
    apply List.filter_eq_self.mpr
    intro a ha
    obtain ⟨c, hc, rfl⟩ := List.mem_map.mp ha
    exact (handle_events_shape inp.cares1_34 inp.events c hc).1
  have h3 : (rearm_pass inp.events inp.interests).filter Action.isProcess = [] := by
    apply List.filter_eq_nil.mpr
    intro a ha
    rw [(rearm_pass_shape inp.events inp.interests a ha).2.2]
    exact Bool.false_ne_true
  rw [h1, h2, h3, List.nil_append, List.append_nil]

/-- In a successful cycle, the re-arm actions are exactly the `rearm_pass`
output, in order. -/
theorem cycle_filter_isRearm (inp : CycleInput) (hq : inp.quit = false)
    (hw : inp.wait = WaitResult.ok) :
    (event_loop_cycle inp).actions.filter Action.isRearm
      = rearm_pass inp.events inp.interests := by
  rw [event_loop_cycle_ok inp hq hw]
  show ((if inp.cares1_34 && inp.pendingWrite then
      [Action.engine EngineCall.processPendingWrite] else [])
      ++ (handle_events inp.cares1_34 inp.events).map Action.engine
      ++ rearm_pass inp.events inp.interests).filter Action.isRearm = _
  rw [List.filter_append, List.filter_append]
  have h1 : (if inp.cares1_34 && inp.pendingWrite then
      [Action.engine EngineCall.processPendingWrite] else []).filter Action.isRearm = [] := by
    by_cases hc : (inp.cares1_34 && inp.pendingWrite) = true
    · rw [if_pos hc]; rfl
    · rw [if_neg hc]; rfl
  have h2 : ((handle_events inp.cares1_34 inp.events).map Action.engine).filter
      Action.isRearm = [] := by
    apply List.filter_eq_nil.mpr
    intro a ha
    obtain ⟨c, hc, rfl⟩ := List.mem_map.mp ha
    have := (handle_events_shape inp.cares1_34 inp.events c hc).1
    cases c with
    | processPendingWrite => cases this
    | processFd rfd wfd => exact Bool.false_ne_true
    | processFds fds => exact Bool.false_ne_true
  have h3 : (rearm_pass inp.events inp.interests).filter Action.isRearm
      = rearm_pass inp.events inp.interests := by
    apply List.filter_eq_self.mpr
    intro a ha
    exact (rearm_pass_shape inp.events inp.interests a ha).1
  rw [h1, h2, h3, List.nil_append, List.nil_append]

/-- A list of actions all of the same rank is rank-sorted. -/
theorem pairwise_rank_const (k : Nat) (l : List Action) (h : ∀ a ∈ l, a.rank = k) :
    l.Pairwise (fun a b => a.rank ≤ b.rank) := by
  induction l with
  | nil => exact List.Pairwise.nil
  | cons a rest ih =>
      refine List.Pairwise.cons ?_ (ih fun b hb => h b (List.mem_cons_of_mem a hb))
      intro b hb
      rw [h a (List.mem_cons_self a rest), h b (List.mem_cons_of_mem a hb)]

/-- In a successful cycle the action list is sorted by phase: any
pending-write flush precedes all readiness processing, and all readiness
processing precedes all re-arming. -/
theorem cycle_actions_phase_sorted (inp : CycleInput) (hq : inp.quit = false)
    (hw : inp.wait = WaitResult.ok) :
    (event_loop_cycle inp).actions.Pairwise (fun a b => a.rank ≤ b.rank) := by
  rw [event_loop_cycle_ok inp hq hw]
  show ((if inp.cares1_34 && inp.pendingWrite then
      [Action.engine EngineCall.processPendingWrite] else [])
      ++ (handle_events inp.cares1_34 inp.events).map Action.engine
      ++ rearm_pass inp.events inp.interests).Pairwise (fun a b => a.rank ≤ b.rank)
  have hpw : ∀ a ∈ (if inp.cares1_34 && inp.pendingWrite then
      [Action.engine EngineCall.processPendingWrite] else []), a.rank = 0 := by
    intro a ha
    by_cases hc : (inp.cares1_34 && inp.pendingWrite) = true
    · rw [if_pos hc] at ha
      rw [List.mem_singleton] at ha
      rw [ha]
      rfl
    · rw [if_neg hc] at ha
      cases ha
  have heng : ∀ a ∈ (handle_events inp.cares1_34 inp.events).map Action.engine,
      a.rank = 1 := by
    intro a ha
    obtain ⟨c, hc, rfl⟩ := List.mem_map.mp ha
    exact (handle_events_shape inp.cares1_34 inp.events c hc).2
  have hre : ∀ a ∈ rearm_pass inp.events inp.interests, a.rank = 2 :=
    fun a ha => (rearm_pass_shape inp.events inp.interests a ha).2.1
  rw [List.pairwise_append]
  refine ⟨?_, pairwise_rank_const 2 _ hre, ?_⟩
  · rw [List.pairwise_append]
    refine ⟨pairwise_rank_const 0 _ hpw, pairwise_rank_const 1 _ heng, ?_⟩
    intro a ha b hb
    rw [hpw a ha, heng b hb]
    exact Nat.zero_le _
  · intro a ha b hb
    rcases List.mem_append.mp ha with h | h
    · rw [hpw a h, hre b hb]
      exact Nat.zero_le _
    · rw [heng a h, hre b hb]
      exact Nat.le_of_lt (Nat.lt_succ_self 1)

/-- In a successful cycle, the pending-write flush appears in the action list
exactly when the build supports it and the flag was set. -/
theorem cycle_flush_mem (inp : CycleInput) (hq : inp.quit = false)
    (hw : inp.wait = WaitResult.ok) :
    Action.engine EngineCall.processPendingWrite ∈ (event_loop_cycle inp).actions
      ↔ (inp.cares1_34 && inp.pendingWrite) = true := by
  rw [event_loop_cycle_ok inp hq hw]
  show Action.engine EngineCall.processPendingWrite ∈
    (if inp.cares1_34 && inp.pendingWrite then
        [Action.engine EngineCall.processPendingWrite] else [])
      ++ (handle_events inp.cares1_34 inp.events).map Action.engine
      ++ rearm_pass inp.events inp.interests ↔ _
  constructor
  · intro h
    rcases List.mem_append.mp h with h | h
    · rcases List.mem_append.mp h with h | h
      · by_cases hc : (inp.cares1_34 && inp.pendingWrite) = true
        · exact hc
        · rw [if_neg hc] at h
          cases h
      · obtain ⟨c, hc, heq⟩ := List.mem_map.mp h
        have := (handle_events_shape inp.cares1_34 inp.events c hc).2
        rw [heq] at this
        exact absurd this (by decide)
    · have := (rearm_pass_shape inp.events inp.interests _ h).2.1
      cases this
  · intro hc
    apply List.mem_append.mpr
    left
    apply List.mem_append.mpr
    left
    rw [if_pos hc]
    exact List.mem_singleton.mpr rfl

/-- C4: within one wake cycle of the loop thread, the steps occur in source
order.  (1) The quit flag is checked immediately after the wait returns,
before any event processing: if set, the thread exits with no actions.
(2) An interrupted wait loops back to waiting with no other action.  (3) Any
other wait failure terminates the loop thread abnormally.  (4) On a
successful wait: the pending-write flush runs (and the flag is cleared)
exactly when it was set, readiness processing hands the reported events to
the engine, and the action list is phase-sorted — flush before all readiness
processing, readiness processing before all re-arming. -/
theorem claim4_cycle_step_order (inp : CycleInput) :
    (inp.quit = true → (event_loop_cycle inp).outcome = CycleOutcome.exited
      ∧ (event_loop_cycle inp).actions = [])
    ∧ (inp.quit = false → inp.wait = WaitResult.errInterrupted →
        (event_loop_cycle inp).outcome = CycleOutcome.continued
          ∧ (event_loop_cycle inp).actions = [])
    ∧ (inp.quit = false → inp.wait = WaitResult.errOther →
        (event_loop_cycle inp).outcome = CycleOutcome.fatal)
    ∧ (inp.quit = false → inp.wait = WaitResult.ok →
        (Action.engine EngineCall.processPendingWrite ∈ (event_loop_cycle inp).actions
            ↔ (inp.cares1_34 && inp.pendingWrite) = true)
          ∧ (inp.cares1_34 = true → (event_loop_cycle inp).pendingWriteAfter = false)
          ∧ ((event_loop_cycle inp).actions.filter Action.isProcess
              = (handle_events inp.cares1_34 inp.events).map Action.engine)
          ∧ ((event_loop_cycle inp).actions.filter Action.isRearm
              = rearm_pass inp.events inp.interests)
          ∧ (event_loop_cycle inp).actions.Pairwise
              (fun a b => Action.rank a ≤ Action.rank b)) := by
  refine ⟨?_, ?_, ?_, ?_⟩
  · intro hq
    unfold event_loop_cycle
    rw [hq]
    exact ⟨rfl, rfl⟩
  · intro hq hw
    unfold event_loop_cycle
    rw [hq, hw]
    exact ⟨rfl, rfl⟩
  · intro hq hw
    unfold event_loop_cycle
    rw [hq, hw]
    rfl
  · intro hq hw
    refine ⟨cycle_flush_mem inp hq hw, ?_, cycle_filter_isProcess inp hq hw,
      cycle_filter_isRearm inp hq hw, cycle_actions_phase_sorted inp hq hw⟩
    intro hc
    rw [event_loop_cycle_ok inp hq hw]
    show (if inp.cares1_34 then false else inp.pendingWrite) = false
    rw [if_pos hc]

/-- Concrete instance of the C4 theorem: a `cares1_34` cycle with the
pending-write flag set and one readable event on socket 4 flushes first,
processes, re-arms, and clears the flag. -/
theorem claim4_witness :
    ((event_loop_cycle ⟨true, false, WaitResult.ok, true, [⟨4, true, false⟩],
        fun s => if s = 4 then some ⟨true, false⟩ else none⟩).actions.filter Action.isProcess
      = [Action.engine (EngineCall.processFds [(4, true, false)])])
    ∧ ((event_loop_cycle ⟨true, false, WaitResult.ok, true, [⟨4, true, false⟩],
        fun s => if s = 4 then some ⟨true, false⟩ else none⟩).pendingWriteAfter = false)
    ∧ ((event_loop_cycle ⟨false, true, WaitResult.errOther, false, [], fun _ => none⟩).outcome
      = CycleOutcome.exited) := by
  refine ⟨?_, ?_, ?_⟩
  · rw [(claim4_cycle_step_order ⟨true, false, WaitResult.ok, true, [⟨4, true, false⟩],
        fun s => if s = 4 then some ⟨true, false⟩ else none⟩).2.2.2 rfl rfl |>.2.2.1]
    rfl
  · exact (claim4_cycle_step_order ⟨true, false, WaitResult.ok, true, [⟨4, true, false⟩],
        fun s => if s = 4 then some ⟨true, false⟩ else none⟩).2.2.2 rfl rfl |>.2.1 rfl
  · exact (claim4_cycle_step_order ⟨false, true, WaitResult.errOther, false, [],
        fun _ => none⟩).1 rfl |>.1

/-- C10: if the quit flag is set at the moment the poller wait returns, the
loop thread exits normally regardless of the wait result — `Ok`,
interrupted, or any other error — because the quit check precedes the
inspection of the wait result; the fatal path is unreachable in such a
cycle. -/
theorem claim10_quit_preempts_wait_errors (cares1_34 : Bool) (wait : WaitResult)
    (pendingWrite : Bool) (events : List Event)
    (interests : Socket → Option Interest) :
    ((event_loop_cycle ⟨cares1_34, true, wait, pendingWrite, events, interests⟩).outcome
        = CycleOutcome.exited)
    ∧ ((event_loop_cycle ⟨cares1_34, true, wait, pendingWrite, events, interests⟩).outcome
        ≠ CycleOutcome.fatal)
    ∧ ((event_loop_cycle ⟨cares1_34, true, wait, pendingWrite, events, interests⟩).actions
        = []) := by
  have h : (event_loop_cycle ⟨cares1_34, true, wait, pendingWrite, events,
      interests⟩).outcome = CycleOutcome.exited := rfl
  refine ⟨h, ?_, rfl⟩
  rw [h]
  intro hc
  cases hc

/-- C9: in a wake cycle with no readiness events, the loop still calls the
engine's process entry point exactly once with the "no socket" sentinel
(`process_fd(SOCKET_BAD, SOCKET_BAD)` in the legacy build, `process_fds`
with an empty batch under `cares1_34`); in a cycle with events, each
reported socket's read/write readiness is passed to the engine — one
`process_fd(rfd, wfd)` per event in the legacy build, and one `process_fds`
call carrying the `(socket, read, write)` flags of every reported event
under `cares1_34`. -/
theorem claim9_quiescent_cycle_still_processes :
    (∀ (cares1_34 pendingWrite : Bool) (interests : Socket → Option Interest),
      (event_loop_cycle ⟨cares1_34, false, WaitResult.ok, pendingWrite, [],
          interests⟩).actions.filter Action.isProcess
        = [Action.engine (if cares1_34 then EngineCall.processFds []
            else EngineCall.processFd none none)])
    ∧ (∀ (pendingWrite : Bool) (interests : Socket → Option Interest)
        (e : Event) (rest : List Event),
        (event_loop_cycle ⟨false, false, WaitResult.ok, pendingWrite, e :: rest,
            interests⟩).actions.filter Action.isProcess
          = (e :: rest).map (fun ev => Action.engine (EngineCall.processFd
              (if ev.readable then some ev.key else none)
              (if ev.writable then some ev.key else none))))
    ∧ (∀ (pendingWrite : Bool) (interests : Socket → Option Interest)
        (events : List Event),
        (event_loop_cycle ⟨true, false, WaitResult.ok, pendingWrite, events,
            interests⟩).actions.filter Action.isProcess
          = [Action.engine (EngineCall.processFds
              (events.map fun ev => (ev.key, ev.readable, ev.writable)))]) := by
  refine ⟨?_, ?_, ?_⟩
  · intro cares1_34 pendingWrite interests
    rw [cycle_filter_isProcess _ rfl rfl]
    cases cares1_34 with
    | true => rfl
    | false => rfl
  · intro pendingWrite interests e rest
    rw [cycle_filter_isProcess _ rfl rfl]
    show ((e :: rest).map fun ev =>
        EngineCall.processFd (if ev.readable then some ev.key else none)
          (if ev.writable then some ev.key else none)).map Action.engine = _
    rw [List.map_map]
    rfl
  · intro pendingWrite interests events
    rw [cycle_filter_isProcess _ rfl rfl]
    rfl

/-- An interests map with a single live entry: socket 5 wants reads. -/
def quietInterests : Socket → Option Interest :=
  fun s => if s = 5 then some ⟨true, false⟩ else none

/-- A quiescent wake cycle: no quit, successful wait, no events reported,
while socket 5 still has a live registry entry. -/
def quietCycleInput : CycleInput :=
  ⟨false, false, WaitResult.ok, false, [], quietInterests⟩

/-- C2 counterexample: in a quiescent cycle, socket 5 has a live entry in the
interests map, yet the loop performs no `poller.modify` at all — it re-arms
only sockets that appeared in this cycle's reported events, contradicting the
claim that every socket with a live entry is re-registered every cycle. -/
theorem claim2_counterexample :
    quietInterests 5 = some ⟨true, false⟩
    ∧ (event_loop_cycle quietCycleInput).outcome = CycleOutcome.continued
    ∧ (event_loop_cycle quietCycleInput).actions
        = [Action.engine (EngineCall.processFd none none)]
    ∧ Action.pollerModify 5 ⟨5, true, false⟩ ∉ (event_loop_cycle quietCycleInput).actions := by
  refine ⟨rfl, rfl, rfl, ?_⟩
  intro h
  rw [show (event_loop_cycle quietCycleInput).actions
      = [Action.engine (EngineCall.processFd none none)] from rfl] at h
  rw [List.mem_singleton] at h
  cases h

/-- C2 (amended): in a successful, non-quitting wake cycle, the loop re-arms
interest with the poller exactly for the sockets that appeared in this
cycle's reported readiness events and still have a live entry in the
interests map, each with the interest recorded in the map at re-arm time;
sockets that did not appear in this cycle's events are not re-registered
(their one-shot registration has not fired and needs no re-arm). -/
theorem claim2_rearm_only_reported_sockets (inp : CycleInput)
    (hq : inp.quit = false) (hw : inp.wait = WaitResult.ok) :
    ∀ (s : Socket) (e : Event),
      Action.pollerModify s e ∈ (event_loop_cycle inp).actions ↔
        ((∃ ev ∈ inp.events, ev.key = s)
          ∧ ∃ i, inp.interests s = some i ∧ e = ⟨s, i.readable, i.writable⟩) := by
  intro s e
  rw [event_loop_cycle_ok inp hq hw]
  show Action.pollerModify s e ∈
    (if inp.cares1_34 && inp.pendingWrite then
        [Action.engine EngineCall.processPendingWrite] else [])
      ++ (handle_events inp.cares1_34 inp.events).map Action.engine
      ++ rearm_pass inp.events inp.interests ↔ _
  constructor
  · intro h
    rcases List.mem_append.mp h with h | h
    · rcases List.mem_append.mp h with h | h
      · by_cases hc : (inp.cares1_34 && inp.pendingWrite) = true
        · rw [if_pos hc, List.mem_singleton] at h
          cases h
        · rw [if_neg hc] at h
          cases h
      · obtain ⟨c, _, heq⟩ := List.mem_map.mp h
        cases heq
    · rw [rearm_pass, List.mem_filterMap] at h
      obtain ⟨ev, hev, hmap⟩ := h
      cases hi : inp.interests ev.key with
      | none => rw [hi] at hmap; cases hmap
      | some i =>
          rw [hi] at hmap
          rw [Option.map_some'] at hmap
          cases hmap
          exact ⟨⟨ev, hev, rfl⟩, i, hi, rfl⟩
  · intro ⟨⟨ev, hev, hkey⟩, i, hi, he⟩
    apply List.mem_append.mpr
    right
    rw [rearm_pass, List.mem_filterMap]
    refine ⟨ev, hev, ?_⟩
    rw [hkey, hi, Option.map_some', he]

/-- Concrete instance of the amended C2 theorem: with one readable event on
socket 5 and a live entry for socket 5, the cycle re-arms socket 5 with the
recorded interest; socket 6 (live entry, no event) is not re-armed. -/
theorem claim2_witness :
    (Action.pollerModify 5 ⟨5, true, false⟩ ∈
      (event_loop_cycle ⟨false, false, WaitResult.ok, false, [⟨5, true, true⟩],
        fun s => if s = 5 then some ⟨true, false⟩
          else if s = 6 then some ⟨false, true⟩ else none⟩).actions)
    ∧ ¬ (Action.pollerModify 6 ⟨6, false, true⟩ ∈
      (event_loop_cycle ⟨false, false, WaitResult.ok, false, [⟨5, true, true⟩],
        fun s => if s = 5 then some ⟨true, false⟩
          else if s = 6 then some ⟨false, true⟩ else none⟩).actions) := by
  constructor
  · exact (claim2_rearm_only_reported_sockets _ rfl rfl 5 ⟨5, true, false⟩).mpr
      ⟨⟨⟨5, true, true⟩, List.mem_singleton.mpr rfl, rfl⟩, ⟨true, false⟩, rfl, rfl⟩
  · intro h
    obtain ⟨⟨ev, hev, hkey⟩, _⟩ :=
      (claim2_rearm_only_reported_sockets _ rfl rfl 6 ⟨6, false, true⟩).mp h
    rw [List.mem_singleton] at hev
    rw [hev] at hkey
    cases hkey

/-- The shared state touched by `EventLoopStopper::drop`: the quit flag and a
count of `poller.notify` wakeups delivered. -/
structure StopperState where
  quit : Bool
  notified : Nat
deriving Repr, DecidableEq

/-- The two steps of `EventLoopStopper::drop`, in order. -/
inductive StopperStep where
  | storeQuit
  | notifyPoller
deriving Repr, DecidableEq

/-- `EventLoopStopper::drop` from `eventloop.rs` lines 33-38: store `true`
into the shared quit flag, then call `poller.notify()`. -/
def stopper_drop (w : StopperState) : StopperState × List StopperStep :=
  ({ quit := true, notified := w.notified + 1 },
   [StopperStep.storeQuit, StopperStep.notifyPoller])

/-- C8: dropping the `EventLoopStopper` sets the shared quit flag to true and
then wakes the poller (exactly one notification, after the store), so the
loop thread's next wake cycle exits; setting the flag is idempotent — a
second drop leaves the flag at the same value, and the flag only ever
transitions to `true`. -/
theorem claim8_stopper_drop_stops_loop (w : StopperState) (cares1_34 : Bool)
    (wait : WaitResult) (pendingWrite : Bool) (events : List Event)
    (interests : Socket → Option Interest) :
    ((stopper_drop w).1.quit = true)
    ∧ ((stopper_drop w).2 = [StopperStep.storeQuit, StopperStep.notifyPoller])
    ∧ ((stopper_drop w).1.notified = w.notified + 1)
    ∧ ((stopper_drop (stopper_drop w).1).1.quit = (stopper_drop w).1.quit)
    ∧ ((event_loop_cycle ⟨cares1_34, (stopper_drop w).1.quit, wait, pendingWrite,
        events, interests⟩).outcome = CycleOutcome.exited) :=
  ⟨rfl, rfl, rfl, rfl, rfl⟩

/-- c-ares engine error codes relevant to this layer. -/
inductive CError where
  | eCANCELLED
  | eDESTRUCTION
  | other (code : Nat)
deriving Repr, DecidableEq

/-- `c_ares::Result<T>`. -/
abbrev CResult (T : Type) := Except CError T

/-- `std::task::Poll`. -/
inductive Poll (A : Type) where
  | ready (a : A)
  | pending
deriving Repr, DecidableEq

/-- `Poll::map`. -/
def Poll.map (f : A → B) : Poll A → Poll B
  | Poll.ready a => Poll.ready (f a)
  | Poll.pending => Poll.pending

/-- State of a `futures_channel::oneshot` channel, seen from the receiver:
nothing sent yet with the sender alive, a value sent, or the sender dropped
without sending. -/
inductive OneshotState (T : Type) where
  | pending
  | sent (v : T)
  | senderDropped
deriving Repr, DecidableEq

/-- Modelled from the `futures_channel::oneshot` dependency:
`Receiver::poll` returns `Pending` while nothing has happened, `Ready(Ok v)`
once the sender sent `v`, and `Ready(Err(Canceled))` once the sender was
dropped without sending. -/
def receiver_poll (st : OneshotState T) : Poll (Except Unit T) :=
  match st with
  | OneshotState.pending => Poll.pending
  | OneshotState.sent v => Poll.ready (Except.ok v)
  | OneshotState.senderDropped => Poll.ready (Except.error ())

/-- `Result::unwrap_or`. -/
def unwrap_or (dflt : A) : Except E A → A
  | Except.ok a => a
  | Except.error _ => dflt

/-- `CAresFuture::poll` from `futureresolver.rs` lines 46-50: poll the inner
oneshot receiver and map `result.unwrap_or(Err(ECANCELLED))` over the
outcome. -/
def caresFuture_poll (st : OneshotState (CResult T)) : Poll (CResult T) :=
  (receiver_poll st).map
    (fun result => unwrap_or (Except.error CError.eCANCELLED) result)

/-- C6: polling a `CAresFuture` returns `Pending` until the one-shot channel
is fulfilled or its sender is dropped; once a value was sent the future
resolves to exactly that value, and if the sender is dropped without a value
the future resolves to `Err(c_ares::Error::ECANCELLED)` rather than
panicking or remaining `Pending` forever. -/
theorem claim6_future_poll_contract (T : Type) (v : CResult T) :
    (caresFuture_poll (OneshotState.pending : OneshotState (CResult T)) = Poll.pending)
    ∧ (caresFuture_poll (OneshotState.sent v) = Poll.ready v)
    ∧ (caresFuture_poll (OneshotState.senderDropped : OneshotState (CResult T))
        = Poll.ready (Except.error CError.eCANCELLED)) :=
  ⟨rfl, rfl, rfl⟩

/-- Modelled from the spec (§4.5, §6) and the `Resolver` doc comment in
`resolver.rs`: how the engine concludes an issued request.  The completion
handler fires exactly once — with the query's result, or with
`Error::EDESTRUCTION` when the resolver (and loop) are torn down while the
request is in flight. -/
inductive EngineConclusion (T : Type) where
  | completes (r : CResult T)
  | destroyedMidFlight

/-- The value the engine passes to the completion handler. -/
def handlerResult : EngineConclusion T → CResult T
  | EngineConclusion.completes r => r
  | EngineConclusion.destroyedMidFlight => Except.error CError.eDESTRUCTION

/-- The buffer of an `mpsc::sync_channel(1)`: `none` while empty.  `tx.send`
on the empty capacity-1 buffer stores the value. -/
def sync_send (buffer : Option T) (v : T) : Option T :=
  match buffer with
  | none => some v
  | some w => some w

/-- `rx.recv()`: yields the buffered value; on a forever-empty channel it
would block forever, modelled as `none`. -/
def sync_recv (buffer : Option T) : Option T := buffer

/-- The `blockify!` macro from `blockingresolver.rs` lines 23-29: create a
capacity-1 channel, issue the resolver call with a handler that sends its
result into the channel, and block receiving from it. -/
def blockify (conclusion : EngineConclusion T) : Option (CResult T) :=
  sync_recv (sync_send none (handlerResult conclusion))

/-- C5: every `BlockingResolver` query method returns only after the handler
has fired, returns exactly the `Result` value the handler was invoked with,
and on teardown mid-flight still returns — with the `EDESTRUCTION` error
delivered through the same channel — rather than blocking forever. -/
theorem claim5_blocking_returns_handler_result (T : Type) (c : EngineConclusion T) :
    (blockify c = some (handlerResult c))
    ∧ ((blockify c).isSome = true)
    ∧ (blockify (EngineConclusion.destroyedMidFlight : EngineConclusion T)
        = some (Except.error CError.eDESTRUCTION)) :=
  ⟨rfl, rfl, rfl⟩

/-- The scenario state for one `FutureResolver` query: whether the façade
value is still alive and whether the returned future is still alive (each
holding one strong reference to the shared `Arc<Resolver>`), plus the
query's oneshot channel. -/
structure FutureWorld (T : Type) where
  facadeAlive : Bool
  futureAlive : Bool
  channel : OneshotState (CResult T)

/-- Strong count of the `Arc<Resolver>`: one reference held by
`FutureResolver.inner`, one cloned by `futurize!` (`futureresolver.rs` lines
63-72, `Arc::clone(&$resolver)`) into each live `CAresFuture::_resolver`. -/
def strongCount (w : FutureWorld T) : Nat :=
  (if w.facadeAlive then 1 else 0) + (if w.futureAlive then 1 else 0)

/-- `Resolver::drop` (stopping the loop and destroying the engine channel)
runs exactly when the last strong reference is gone. -/
def resolverDestroyed (w : FutureWorld T) : Prop := strongCount w = 0

/-- `futurize!`: create the oneshot pair, issue the query with a handler
that sends into it, and clone the shared handle into the returned future. -/
def futurize (w : FutureWorld T) : FutureWorld T :=
  { w with futureAlive := true, channel := OneshotState.pending }

/-- Dropping the `FutureResolver` façade releases only its own strong
reference. -/
def dropFutureResolver (w : FutureWorld T) : FutureWorld T :=
  { w with facadeAlive := false }

/-- Modelled from the spec (§4.5, §4.7): the engine concluding the in-flight
query.  While any strong reference keeps the `Resolver` alive, the loop runs
and the handler fulfills the oneshot with the engine's own result; if the
`Resolver` was already destroyed, the handler fired with `EDESTRUCTION` at
destruction time.  Either way the sender is consumed, never merely dropped. -/
def engineConcludes (w : FutureWorld T) (r : CResult T) : FutureWorld T :=
  if strongCount w = 0 then
    { w with channel := OneshotState.sent (Except.error CError.eDESTRUCTION) }
  else
    { w with channel := OneshotState.sent r }

/-- The world right after `FutureResolver::with_options`: the façade holds
the only strong reference and no future exists yet. -/
def initFutureWorld (T : Type) : FutureWorld T :=
  ⟨true, false, OneshotState.pending⟩

/-- C7: every `CAresFuture` holds a cloned strong reference to the shared
`Resolver`, so after the `FutureResolver` façade that created it is dropped
the strong count is still positive — the engine channel and loop stay alive —
and the future resolves with the engine's own result (success or engine
error), not with a cancellation caused purely by the drop. -/
theorem claim7_future_keeps_resolver_alive (T : Type) (r : CResult T)
    (w0 : FutureWorld T) :
    (strongCount (futurize w0) ≥ 1)
    ∧ (strongCount (dropFutureResolver (futurize (initFutureWorld T))) = 1)
    ∧ ¬ resolverDestroyed (dropFutureResolver (futurize (initFutureWorld T)))
    ∧ (caresFuture_poll
        (engineConcludes (dropFutureResolver (futurize (initFutureWorld T))) r).channel
          = Poll.ready r)
    ∧ ((engineConcludes (dropFutureResolver (futurize (initFutureWorld T))) r).channel
          ≠ OneshotState.senderDropped) := by
  refine ⟨?_, rfl, ?_, rfl, ?_⟩
  · show 1 ≤ (if w0.facadeAlive then 1 else 0) + 1
    exact Nat.le_add_left 1 _
  · intro h
    cases h
  · intro h
    cases h
